import Mathlib

/-!
Verification of the liquidation live fan-out and refresh engine of the
LiquidTerminal backend, as a shallow embedding of the TypeScript source:
the `SSEManagerService` (stream registry and broadcast fan-out), the
`LiquidationsService` (refresh pass, statistics and bucket aggregation),
and the `/liquidations/stream` route handler.

Monetary amounts and numeric fields are modelled over `ℚ`, epoch-millisecond
timestamps and trade identifiers over `ℤ`.  JavaScript truthiness guards
(`filters.coin && ...`) are modelled explicitly: a string is truthy iff it is
nonempty, a number is truthy iff it is nonzero.
-/

namespace LiquidTerminal

/-- Liquidation direction, the `liq_dir` field (`"Long" | "Short"` in
`liquidations.types.ts`). -/
inductive LiqDir where
  | Long
  | Short
deriving DecidableEq, Repr

/-- Liquidation event (`Liquidation` in `liquidations.types.ts`), restricted to
the fields the verified code reads.  `timeMs` is the epoch-millisecond value
the services obtain by parsing the authoritative ISO `time` string
(`new Date(liq.time).getTime()`); the corrupted upstream `time_ms` field is
never read by the verified code and is omitted. -/
structure Liquidation where
  timeMs : Int
  coin : String
  liquidated_user : String
  notional_total : ℚ
  liq_dir : LiqDir
  tid : Int
deriving DecidableEq, Repr

/-- Per-session filter preferences (`SSEClientFilters`): optional coin,
minimum notional, and liquidated-user address. -/
structure SSEClientFilters where
  coin : Option String
  minAmountDollars : Option ℚ
  user : Option String
deriving DecidableEq, Repr

/-- ASCII uppercasing of a string, modelling the JavaScript `toUpperCase`
calls of the filter code (the coins and addresses compared are ASCII). -/
def upperStr (s : String) : String := ⟨s.data.map Char.toUpper⟩

/-- JavaScript truthiness of an optional string: present and nonempty. -/
def optStrTruthy : Option String → Bool
  | none => false
  | some s => s != ""

/-- JavaScript truthiness of an optional number: present and nonzero. -/
def optRatTruthy : Option ℚ → Bool
  | none => false
  | some q => q != 0

/-- Body of the filter callback in `SSEManagerService.filterLiquidations`:
reject when a truthy coin filter mismatches case-insensitively, then reject
when a truthy minimum-amount filter exceeds the notional, else accept.
The `user` field of the filters is not consulted. -/
def liqPasses (filters : SSEClientFilters) (liq : Liquidation) : Bool :=
  if optStrTruthy filters.coin &&
      (upperStr liq.coin != upperStr (filters.coin.getD "")) then
    false
  else if optRatTruthy filters.minAmountDollars &&
      decide (liq.notional_total < (filters.minAmountDollars.getD 0)) then
    false
  else
    true

/-- `SSEManagerService.filterLiquidations`: keep the events that pass the
client's filters, in order. -/
def filterLiquidations (liquidations : List Liquidation)
    (filters : SSEClientFilters) : List Liquidation :=
  liquidations.filter (liqPasses filters)

/-- Modelled from the spec: the delivery-filter acceptance predicate as the
specification words it, with all three provided criteria ANDed — coin
case-insensitive equality, notional at least `minNotional`, and user
case-insensitive equality against `liquidated_user`. -/
def specFilterAccepts (filters : SSEClientFilters) (liq : Liquidation) : Bool :=
  (match filters.coin with
   | some c => upperStr liq.coin == upperStr c
   | none => true) &&
  (match filters.minAmountDollars with
   | some m => decide (m ≤ liq.notional_total)
   | none => true) &&
  (match filters.user with
   | some u => upperStr liq.liquidated_user == upperStr u
   | none => true)

/-- The coin and minimum-notional criteria exactly as the code applies them: a
provided, nonempty coin must match case-insensitively, a provided, nonzero
minimum must be at most the notional; the user criterion does not appear. -/
def coinMinAccepts (filters : SSEClientFilters) (liq : Liquidation) : Bool :=
  (match filters.coin with
   | some c => c == "" || upperStr liq.coin == upperStr c
   | none => true) &&
  (match filters.minAmountDollars with
   | some m => m == 0 || decide (m ≤ liq.notional_total)
   | none => true)

/-- In-memory state of one attached SSE session (`SSEClient` minus the
response writer): the filters, the last delivered event id, and the source
IP address. -/
structure SSEClientSt where
  filters : SSEClientFilters
  lastEventId : Option Int
  ip : String
deriving DecidableEq, Repr

/-- Effect of `SSEManagerService.handleBroadcastMessage` on one attached
client: the client's filters select the delivered events from
`newLiquidations`, each delivered event is written in list order, and
`lastEventId` is overwritten with each delivered event's `tid` in turn, so
it ends at the last delivered `tid` (unchanged when nothing passes). -/
def deliverBroadcast (client : SSEClientSt) (newLiquidations : List Liquidation) :
    List Liquidation × SSEClientSt :=
  let filtered := filterLiquidations newLiquidations client.filters
  (filtered,
    match filtered.getLast? with
    | some lastLiq => { client with lastEventId := some lastLiq.tid }
    | none => client)

theorem liqPasses_eq_coinMinAccepts (f : SSEClientFilters) (liq : Liquidation) :
    liqPasses f liq = coinMinAccepts f liq := by
  unfold liqPasses coinMinAccepts optStrTruthy optRatTruthy
  cases hc : f.coin with
  | none =>
    cases hm : f.minAmountDollars with
    | none => simp
    | some m =>
      by_cases h1 : m = 0 <;> by_cases h2 : liq.notional_total < m <;>
        simp [h1, h2]
      exact not_lt.mp h2
  | some c =>
    cases hm : f.minAmountDollars with
    | none =>
      by_cases h1 : c = "" <;> by_cases h2 : upperStr liq.coin = upperStr c <;>
        simp [h1, h2]
    | some m =>
      by_cases h1 : c = "" <;> by_cases h2 : upperStr liq.coin = upperStr c <;>
        by_cases h3 : m = 0 <;> by_cases h4 : liq.notional_total < m <;>
        simp [h1, h2, h3, h4] <;>
        exact not_lt.mp h4

theorem deliverBroadcast_filters (c : SSEClientSt) (msg : List Liquidation) :
    (deliverBroadcast c msg).2.filters = c.filters := by
  unfold deliverBroadcast
  rcases h : (filterLiquidations msg c.filters).getLast? with _ | l <;> simp [h]

theorem deliverBroadcast_fst (c : SSEClientSt) (msg : List Liquidation) :
    (deliverBroadcast c msg).1 = filterLiquidations msg c.filters := rfl

/-- Sample event with trade id 3, used to exercise the live delivery path. -/
def evTid3 : Liquidation :=
  { timeMs := 0, coin := "BTC", liquidated_user := "0xdead",
    notional_total := 100, liq_dir := .Long, tid := 3 }

/-- Session with no filters whose last delivered event id is 5. -/
def clientLast5 : SSEClientSt :=
  { filters := { coin := none, minAmountDollars := none, user := none },
    lastEventId := some 5, ip := "203.0.113.7" }

/-- Claim C1, counterexample: the live delivery path of
`handleBroadcastMessage` never consults `lastEventId`.  A session whose
`lastEventId` is 5 still receives the event with tid 3 — and receives it
again when the same broadcast message is handled a second time — although
the claim requires `e.tid > s.lastEventId` and at-most-once delivery. -/
theorem claim_C1_counterexample :
    (deliverBroadcast clientLast5 [evTid3]).1 = [evTid3]
    ∧ (deliverBroadcast ((deliverBroadcast clientLast5 [evTid3]).2) [evTid3]).1
        = [evTid3]
    ∧ clientLast5.lastEventId = some 5
    ∧ evTid3.tid = 3 := by
  decide

/-- Claim C1 (amended): for every attached session and broadcast message, the
session receives an event of the message iff the session filter accepts it —
the `tid > lastEventId` guard is absent from the live delivery path — and
handling the same broadcast message a second time delivers exactly the same
events again (so duplicate handling is not suppressed). -/
theorem claim_C1_live_delivery (c : SSEClientSt) (msg : List Liquidation) :
    (∀ e, e ∈ (deliverBroadcast c msg).1 ↔ e ∈ msg ∧ liqPasses c.filters e = true)
    ∧ (deliverBroadcast ((deliverBroadcast c msg).2) msg).1
        = (deliverBroadcast c msg).1 := by
  constructor
  · intro e
    rw [deliverBroadcast_fst]
    simp [filterLiquidations, List.mem_filter]
  · rw [deliverBroadcast_fst, deliverBroadcast_fst, deliverBroadcast_filters]

/-- Filter set that only provides a user criterion. -/
def filtersUserOnly : SSEClientFilters :=
  { coin := none, minAmountDollars := none, user := some "0XAAA" }

/-- Event whose liquidated user does not match `filtersUserOnly`. -/
def evOtherUser : Liquidation :=
  { timeMs := 0, coin := "ETH", liquidated_user := "0xbbb",
    notional_total := 50, liq_dir := .Short, tid := 7 }

/-- Claim C7, counterexample: a session filter that provides only a `user`
criterion accepts an event whose `liquidated_user` differs, because
`filterLiquidations` never reads the user field; the spec-worded predicate
(all provided criteria ANDed) rejects that event. -/
theorem claim_C7_counterexample :
    evOtherUser ∈ filterLiquidations [evOtherUser] filtersUserOnly
    ∧ specFilterAccepts filtersUserOnly evOtherUser = false := by
  decide

/-- Claim C7 (amended): the delivery filter accepts an event iff the provided
coin criterion (case-insensitive equality, ignored when the coin string is
empty) and the provided minNotional criterion (notional at least the minimum,
ignored when the minimum is zero) both hold; a provided user criterion is
never applied. -/
theorem claim_C7_filter_semantics (liqs : List Liquidation)
    (f : SSEClientFilters) (liq : Liquidation) :
    liq ∈ filterLiquidations liqs f ↔ liq ∈ liqs ∧ coinMinAccepts f liq = true := by
  simp [filterLiquidations, List.mem_filter, liqPasses_eq_coinMinAccepts]

/-- JavaScript Math.round: round half toward positive infinity. -/
def jsRound (x : ℚ) : Int := Int.floor (x + 1 / 2)

/-- Two-decimal rounding used on every emitted monetary value:
Math.round(x * 100) / 100. -/
def round2 (x : ℚ) : ℚ := (jsRound (x * 100) : ℚ) / 100

/-- Accumulator of the single pass in `LiquidationsService.calculateStats`. -/
structure StatsAcc where
  totalVolume : ℚ
  longCount : Nat
  shortCount : Nat
  longVolume : ℚ
  shortVolume : ℚ
  maxLiq : ℚ
  coinVolumes : List (String × ℚ)
deriving DecidableEq, Repr

def initStatsAcc : StatsAcc :=
  { totalVolume := 0, longCount := 0, shortCount := 0,
    longVolume := 0, shortVolume := 0, maxLiq := 0, coinVolumes := [] }

/-- JavaScript Map accumulation `coinVolumes.set(c, (coinVolumes.get(c) || 0) + v)`:
updating an existing key keeps its first-insertion position, a new key is
appended. -/
def bumpCoinVolume : List (String × ℚ) → String → ℚ → List (String × ℚ)
  | [], coin, v => [(coin, v)]
  | (c, v0) :: rest, coin, v =>
      if c = coin then (c, v0 + v) :: rest
      else (c, v0) :: bumpCoinVolume rest coin v

/-- Loop body of `calculateStats`: accumulate total, max, per-direction counts
and volumes, and the per-coin volume map. -/
def statsStep (acc : StatsAcc) (liq : Liquidation) : StatsAcc :=
  { totalVolume := acc.totalVolume + liq.notional_total,
    maxLiq := if liq.notional_total > acc.maxLiq then liq.notional_total else acc.maxLiq,
    longCount := if liq.liq_dir = .Long then acc.longCount + 1 else acc.longCount,
    longVolume :=
      if liq.liq_dir = .Long then acc.longVolume + liq.notional_total else acc.longVolume,
    shortCount := if liq.liq_dir = .Long then acc.shortCount else acc.shortCount + 1,
    shortVolume :=
      if liq.liq_dir = .Long then acc.shortVolume else acc.shortVolume + liq.notional_total,
    coinVolumes := bumpCoinVolume acc.coinVolumes liq.coin liq.notional_total }

def statsFold (liquidations : List Liquidation) : StatsAcc :=
  liquidations.foldl statsStep initStatsAcc

/-- Top-coin selection loop of `calculateStats`: starting from "N/A" with
volume 0, replace the best entry only on a strictly greater volume (so the
earliest-inserted coin wins ties). -/
def topCoinSel (entries : List (String × ℚ)) : String × ℚ :=
  entries.foldl (fun best p => if p.2 > best.2 then p else best) ("N/A", 0)

/-- Emitted per-period statistics record (`LiquidationStats`). -/
structure LiquidationStats where
  totalVolume : ℚ
  liquidationsCount : Nat
  longCount : Nat
  shortCount : Nat
  topCoin : String
  topCoinVolume : ℚ
  avgSize : ℚ
  maxLiq : ℚ
  longVolume : ℚ
  shortVolume : ℚ
deriving DecidableEq, Repr

/-- `LiquidationsService.calculateStats`: one pass of accumulation, top-coin
selection, average size guarded against empty input, and two-decimal rounding
of every emitted monetary value. -/
def calculateStats (liquidations : List Liquidation) : LiquidationStats :=
  let acc := statsFold liquidations
  let top := topCoinSel acc.coinVolumes
  { totalVolume := round2 acc.totalVolume,
    liquidationsCount := liquidations.length,
    longCount := acc.longCount,
    shortCount := acc.shortCount,
    topCoin := top.1,
    topCoinVolume := round2 top.2,
    avgSize :=
      if liquidations.length > 0 then
        round2 (acc.totalVolume / (liquidations.length : ℚ))
      else 0,
    maxLiq := round2 acc.maxLiq,
    longVolume := round2 acc.longVolume,
    shortVolume := round2 acc.shortVolume }

/-- Time bucket of the chart data (`ChartDataBucket`), with the ISO timestamp
string replaced by its epoch-millisecond value. -/
structure ChartDataBucket where
  timestampMs : Int
  totalVolume : ℚ
  longVolume : ℚ
  shortVolume : ℚ
  liquidationsCount : Nat
  longCount : Nat
  shortCount : Nat
deriving DecidableEq, Repr

def zeroBucket (ts : Int) : ChartDataBucket :=
  { timestampMs := ts, totalVolume := 0, longVolume := 0, shortVolume := 0,
    liquidationsCount := 0, longCount := 0, shortCount := 0 }

/-- Bucket map pre-initialization of `aggregateIntoBuckets`: one empty bucket
keyed at startMs + i * intervalMs for each i below the bucket count. -/
def initBuckets (startMs intervalMs : Int) (numBuckets : Nat) :
    List (Int × ChartDataBucket) :=
  (List.range numBuckets).map fun i : Nat =>
    (startMs + (i : Int) * intervalMs, zeroBucket (startMs + (i : Int) * intervalMs))

/-- Accumulation of one liquidation into one bucket. -/
def bucketAdd (b : ChartDataBucket) (liq : Liquidation) : ChartDataBucket :=
  { b with
    totalVolume := b.totalVolume + liq.notional_total,
    liquidationsCount := b.liquidationsCount + 1,
    longVolume :=
      if liq.liq_dir = .Long then b.longVolume + liq.notional_total else b.longVolume,
    longCount := if liq.liq_dir = .Long then b.longCount + 1 else b.longCount,
    shortVolume :=
      if liq.liq_dir = .Long then b.shortVolume else b.shortVolume + liq.notional_total,
    shortCount := if liq.liq_dir = .Long then b.shortCount else b.shortCount + 1 }

/-- JavaScript `buckets.get(bucketStart)` followed by in-place mutation: the
bucket stored under the key is updated when present, otherwise the event is
dropped. -/
def updateBucketAt : List (Int × ChartDataBucket) → Int → Liquidation →
    List (Int × ChartDataBucket)
  | [], _, _ => []
  | (k, b) :: rest, key, liq =>
      if k = key then (k, bucketAdd b liq) :: rest
      else (k, b) :: updateBucketAt rest key liq

/-- Loop body of the aggregation loop in `aggregateIntoBuckets`: compute the
floor bucket index of the event time, rebuild the bucket key, and update the
bucket stored there when it exists. -/
def aggregateStep (startMs intervalMs : Int) (m : List (Int × ChartDataBucket))
    (liq : Liquidation) : List (Int × ChartDataBucket) :=
  let bucketIndex := Int.fdiv (liq.timeMs - startMs) intervalMs
  let bucketStart := startMs + bucketIndex * intervalMs
  updateBucketAt m bucketStart liq

def roundBucket (b : ChartDataBucket) : ChartDataBucket :=
  { b with
    totalVolume := round2 b.totalVolume,
    longVolume := round2 b.longVolume,
    shortVolume := round2 b.shortVolume }

def bucketTimeLe (a b : ChartDataBucket) : Prop := a.timestampMs ≤ b.timestampMs

instance : DecidableRel bucketTimeLe := fun a b => Int.decLe a.timestampMs b.timestampMs

/-- Bucket count `Math.ceil((hours * 3600000) / intervalMs)`, written with
Nat ceiling division. -/
def numBucketsFor (hours intervalMs : Nat) : Nat :=
  (hours * 3600000 + intervalMs - 1) / intervalMs

/-- `LiquidationsService.aggregateIntoBuckets` at a given clock reading `now`
(the effectful Date.now() made an explicit argument): pre-initialize the
bucket map, fold the events into it, round the volumes, and sort the buckets
ascending by timestamp. -/
def aggregateIntoBuckets (liquidations : List Liquidation)
    (intervalMs hours : Nat) (now : Int) : List ChartDataBucket :=
  let startMs : Int := now - ((hours * 3600000 : Nat) : Int)
  let m0 := initBuckets startMs (intervalMs : Int) (numBucketsFor hours intervalMs)
  let m1 := liquidations.foldl (aggregateStep startMs (intervalMs : Int)) m0
  List.insertionSort bucketTimeLe (m1.map fun p => roundBucket p.2)

/-- Period table `PERIOD_CONFIG`: hours paired with the bucket width in
milliseconds, for the five configured windows. -/
def PERIOD_CONFIG : List (Nat × Nat) :=
  [(2, 300000), (4, 300000), (8, 900000), (12, 900000), (24, 1800000)]

/-- Cutoff filter applied to the assembled window before stats and buckets are
built for one period: keep the events whose parsed time is at least
now − hours·3600000. -/
def periodFilter (liquidations : List Liquidation) (now : Int) (hours : Nat) :
    List Liquidation :=
  liquidations.filter fun liq =>
    decide (liq.timeMs ≥ now - ((hours * 3600000 : Nat) : Int))

/-- Stats and chart of one period inside the unified blob (`PeriodData`). -/
structure PeriodData where
  hours : Nat
  stats : LiquidationStats
  buckets : List ChartDataBucket
deriving DecidableEq, Repr

/-- Per-period content of `buildAndCacheUnifiedData`: for each configured
period, filter the window by the cutoff, then compute stats and buckets from
the filtered list. -/
def buildUnifiedPeriods (W : List Liquidation) (now : Int) : List PeriodData :=
  PERIOD_CONFIG.map fun cfg =>
    let periodLiquidations := periodFilter W now cfg.1
    { hours := cfg.1,
      stats := calculateStats periodLiquidations,
      buckets := aggregateIntoBuckets periodLiquidations cfg.2 cfg.1 now }

theorem topSel_fold_ge (entries : List (String × ℚ)) (best : String × ℚ) :
    best.2 ≤ (entries.foldl (fun b p => if p.2 > b.2 then p else b) best).2
    ∧ ∀ p ∈ entries, p.2 ≤ (entries.foldl (fun b p => if p.2 > b.2 then p else b) best).2 := by
  induction entries generalizing best with
  | nil => exact ⟨le_refl _, by simp⟩
  | cons q rest ih =>
    have hstep : best.2 ≤ (if q.2 > best.2 then q else best).2 := by
      by_cases h : q.2 > best.2
      · simpa [h] using le_of_lt h
      · simp [h]
    constructor
    · exact le_trans hstep (ih (if q.2 > best.2 then q else best)).1
    · intro p hp
      rcases List.mem_cons.mp hp with rfl | hp
      · have hq : p.2 ≤ (if p.2 > best.2 then p else best).2 := by
          by_cases h : p.2 > best.2
          · simp [h]
          · simpa [h] using le_of_not_lt h
        simpa using le_trans hq (ih (if p.2 > best.2 then p else best)).1
      · simpa using (ih (if q.2 > best.2 then q else best)).2 p hp

/-- First event of the tie-break scenario S3: BTC with notional 100. -/
def evBTC100 : Liquidation :=
  { timeMs := 0, coin := "BTC", liquidated_user := "0xa",
    notional_total := 100, liq_dir := .Long, tid := 1 }

/-- Second event of the tie-break scenario S3: ALT with notional 100. -/
def evALT100 : Liquidation :=
  { timeMs := 0, coin := "ALT", liquidated_user := "0xb",
    notional_total := 100, liq_dir := .Short, tid := 2 }

/-- Claim C3, counterexample: on the two-event list BTC:100 then ALT:100 the
statistics builder returns topCoin BTC, not the lexicographically smaller
ALT — the selection loop replaces the best coin only on strictly greater
volume, so the earliest-inserted coin wins ties. -/
theorem claim_C3_counterexample :
    (calculateStats [evBTC100, evALT100]).topCoin = "BTC"
    ∧ (calculateStats [evBTC100, evALT100]).topCoin ≠ "ALT" := by
  decide

/-- Claim C3 (amended): the selected top coin accumulates a volume at least
as large as every coin's accumulated volume, and ties are broken in favour of
the coin occurring earliest in the event list — so the two-event list BTC:100
then ALT:100 yields topCoin BTC. -/
theorem claim_C3_topCoin (liqs : List Liquidation) :
    ((statsFold liqs).coinVolumes.all fun p =>
        decide (p.2 ≤ (topCoinSel (statsFold liqs).coinVolumes).2)) = true
    ∧ (calculateStats [evBTC100, evALT100]).topCoin = "BTC" := by
  constructor
  · rw [List.all_eq_true]
    intro p hp
    simp only [decide_eq_true_eq]
    exact (topSel_fold_ge (statsFold liqs).coinVolumes ("N/A", 0)).2 p hp
  · decide

theorem statsFold_total_eq (liqs : List Liquidation) (acc : StatsAcc)
    (h : acc.totalVolume = acc.longVolume + acc.shortVolume) :
    (liqs.foldl statsStep acc).totalVolume
      = (liqs.foldl statsStep acc).longVolume + (liqs.foldl statsStep acc).shortVolume := by
  induction liqs generalizing acc with
  | nil => simpa using h
  | cons l rest ih =>
    simp only [List.foldl_cons]
    apply ih
    unfold statsStep
    cases hd : l.liq_dir <;> simp [hd, h] <;> ring

theorem statsFold_cnt (liqs : List Liquidation) (acc : StatsAcc) :
    (liqs.foldl statsStep acc).longCount + (liqs.foldl statsStep acc).shortCount
      = acc.longCount + acc.shortCount + liqs.length := by
  induction liqs generalizing acc with
  | nil => simp
  | cons l rest ih =>
    simp only [List.foldl_cons, List.length_cons]
    rw [ih]
    unfold statsStep
    cases hd : l.liq_dir <;> simp [hd] <;> omega

/-- Long event with notional 0.006 for the rounding counterexample. -/
def evLong0006 : Liquidation :=
  { timeMs := 0, coin := "A", liquidated_user := "0xa",
    notional_total := 6 / 1000, liq_dir := .Long, tid := 1 }

/-- Short event with notional 0.006 for the rounding counterexample. -/
def evShort0006 : Liquidation :=
  { timeMs := 0, coin := "B", liquidated_user := "0xb",
    notional_total := 6 / 1000, liq_dir := .Short, tid := 2 }

/-- Claim C5, counterexample: with one long and one short event of notional
0.006 each, the emitted volumes are longVolume = shortVolume = 0.01 but
totalVolume = round2(0.012) = 0.01, so the emitted equation
longVolume + shortVolume = totalVolume fails after per-field rounding. -/
theorem claim_C5_counterexample :
    (calculateStats [evLong0006, evShort0006]).longVolume
      + (calculateStats [evLong0006, evShort0006]).shortVolume
      ≠ (calculateStats [evLong0006, evShort0006]).totalVolume := by
  norm_num [calculateStats, statsFold, statsStep, initStatsAcc, topCoinSel,
    bumpCoinVolume, round2, jsRound, evLong0006, evShort0006]
  simp only [reduceCtorEq, if_false]
  norm_num

/-- Claim C5 (amended): longCount + shortCount = count holds for every event
list, and the volume identity holds before rounding: the emitted totalVolume
is the two-decimal rounding of the sum of the unrounded long and short
volumes, each emitted per-direction volume being the rounding of its
unrounded accumulator.  The emitted equation itself can be off by one cent
because the three fields are rounded independently. -/
theorem claim_C5_stats_identities (liqs : List Liquidation) :
    (calculateStats liqs).longCount + (calculateStats liqs).shortCount
        = (calculateStats liqs).liquidationsCount
    ∧ (calculateStats liqs).totalVolume
        = round2 ((statsFold liqs).longVolume + (statsFold liqs).shortVolume)
    ∧ (calculateStats liqs).longVolume = round2 (statsFold liqs).longVolume
    ∧ (calculateStats liqs).shortVolume = round2 (statsFold liqs).shortVolume := by
  refine ⟨?_, ?_, rfl, rfl⟩
  · show (statsFold liqs).longCount + (statsFold liqs).shortCount = liqs.length
    have h := statsFold_cnt liqs initStatsAcc
    simpa [statsFold, initStatsAcc] using h
  · show round2 (statsFold liqs).totalVolume = _
    rw [show (statsFold liqs).totalVolume
          = (statsFold liqs).longVolume + (statsFold liqs).shortVolume from
        statsFold_total_eq liqs initStatsAcc (by simp [initStatsAcc])]

/-- Clock reading for scenario S2: two hours past epoch, so the 2h chart
starts at 0. -/
def nowS2 : Int := 7200000

/-- Single large long of scenario S2: tid 10, ten minutes before `nowS2`. -/
def evS2 : Liquidation :=
  { timeMs := 6600000, coin := "BTC", liquidated_user := "0xa",
    notional_total := 1234567.89, liq_dir := .Long, tid := 10 }

/-- Claim C4, counterexample: the single event ten minutes before now lands
in the 2h/5m chart at ascending-index 22 = floor(110min / 5min), not at
index 2 = floor(10 / 5) as claimed; bucket 2 (near the start of the window,
110 minutes in the past) stays empty. -/
theorem claim_C4_counterexample :
    ((aggregateIntoBuckets [evS2] 300000 2 nowS2).map fun b => b.liquidationsCount)[2]?
        = some 0
    ∧ ((aggregateIntoBuckets [evS2] 300000 2 nowS2).map fun b => b.liquidationsCount)[22]?
        = some 1 := by
  decide

/-- Claim C4 (amended): the 2h chart built from the single-event window of
scenario S2 has exactly one bucket holding an event — it counts one long
liquidation — and it sits at ascending index 22 of the 24 buckets: the index
floor((2h − 10min) / 5min) counted from the window start, not
floor(10/5) = 2. -/
theorem claim_C4_single_bucket :
    ((aggregateIntoBuckets [evS2] 300000 2 nowS2).map fun b => b.liquidationsCount)
      = (List.range 24).map (fun i => if i = 22 then 1 else 0)
    ∧ ((aggregateIntoBuckets [evS2] 300000 2 nowS2).map fun b => b.longCount)
      = (List.range 24).map (fun i => if i = 22 then 1 else 0) := by
  decide

/-- Zero-valued statistics record the builder emits for an empty period. -/
def zeroStats : LiquidationStats :=
  { totalVolume := 0, liquidationsCount := 0, longCount := 0, shortCount := 0,
    topCoin := "N/A", topCoinVolume := 0, avgSize := 0, maxLiq := 0,
    longVolume := 0, shortVolume := 0 }

def bucketIsZero (b : ChartDataBucket) : Bool :=
  b.liquidationsCount == 0 && b.longCount == 0 && b.shortCount == 0 &&
  b.totalVolume == 0 && b.longVolume == 0 && b.shortVolume == 0

theorem round2_zero : round2 0 = 0 := by
  unfold round2 jsRound
  norm_num

theorem roundBucket_zeroBucket (ts : Int) :
    roundBucket (zeroBucket ts) = zeroBucket ts := by
  simp [roundBucket, zeroBucket, round2_zero]

theorem bucketIsZero_zeroBucket (ts : Int) : bucketIsZero (zeroBucket ts) = true := by
  simp [bucketIsZero, zeroBucket]

theorem calculateStats_nil : calculateStats [] = zeroStats := by
  simp [calculateStats, statsFold, initStatsAcc, topCoinSel, zeroStats, round2_zero]

theorem aggregateIntoBuckets_nil (intervalMs hours : Nat) (now : Int) :
    aggregateIntoBuckets [] intervalMs hours now
      = (List.range (numBucketsFor hours intervalMs)).map fun i : Nat =>
          zeroBucket (now - ((hours * 3600000 : Nat) : Int) + (i : Int) * intervalMs) := by
  have hmap :
      ((initBuckets (now - ((hours * 3600000 : Nat) : Int)) (intervalMs : Int)
          (numBucketsFor hours intervalMs)).map fun p => roundBucket p.2)
        = (List.range (numBucketsFor hours intervalMs)).map fun i : Nat =>
            zeroBucket (now - ((hours * 3600000 : Nat) : Int) + (i : Int) * intervalMs) := by
    unfold initBuckets
    rw [List.map_map]
    exact List.map_congr_left fun i _ => by
      simp [Function.comp, roundBucket_zeroBucket]
  have hsorted :
      List.Sorted bucketTimeLe
        ((List.range (numBucketsFor hours intervalMs)).map fun i : Nat =>
          zeroBucket (now - ((hours * 3600000 : Nat) : Int) + (i : Int) * intervalMs)) := by
    refine List.Pairwise.map _ ?_ (List.pairwise_lt_range _)
    intro a b hab
    show (zeroBucket _).timestampMs ≤ (zeroBucket _).timestampMs
    simp only [zeroBucket]
    have hmul : (a : Int) * intervalMs ≤ (b : Int) * intervalMs := by
      apply mul_le_mul_of_nonneg_right
      · exact_mod_cast le_of_lt hab
      · positivity
    omega
  show List.insertionSort bucketTimeLe
      ((List.foldl _ (initBuckets _ _ _) []).map fun p => roundBucket p.2) = _
  rw [List.foldl_nil, hmap]
  exact hsorted.insertionSort_eq

/-- Claim C6: on the empty window, whatever the clock reading, the unified
build returns for each of the five periods in order the zero statistics
record with topCoin "N/A" and avgSize 0 (a value, not null), and an all-zero
bucket list of length 24, 48, 32, 48 and 48 respectively. -/
theorem claim_C6_empty_window (now : Int) :
    ((buildUnifiedPeriods [] now).map fun p => p.stats) = List.replicate 5 zeroStats
    ∧ ((buildUnifiedPeriods [] now).map fun p => p.buckets.length) = [24, 48, 32, 48, 48]
    ∧ ((buildUnifiedPeriods [] now).all fun p => p.buckets.all bucketIsZero) = true := by
  have hbuild : buildUnifiedPeriods [] now
      = PERIOD_CONFIG.map fun cfg =>
          { hours := cfg.1, stats := zeroStats,
            buckets := (List.range (numBucketsFor cfg.1 cfg.2)).map fun i : Nat =>
              zeroBucket (now - ((cfg.1 * 3600000 : Nat) : Int) + (i : Int) * cfg.2) } := by
    unfold buildUnifiedPeriods
    refine List.map_congr_left fun cfg _ => ?_
    simp [periodFilter, calculateStats_nil, aggregateIntoBuckets_nil]
  rw [hbuild]
  refine ⟨?_, ?_, ?_⟩
  · simp [PERIOD_CONFIG, List.replicate]
  · simp only [PERIOD_CONFIG, List.map_cons, List.map_nil, List.length_map,
      List.length_range]
    decide
  · simp [PERIOD_CONFIG, List.all_eq_true, bucketIsZero_zeroBucket]

/-- Per-IP connection limit `MAX_CONNECTIONS_PER_IP`. -/
def MAX_CONNECTIONS_PER_IP : Nat := 3

/-- Global connection limit `MAX_TOTAL_CONNECTIONS`. -/
def MAX_TOTAL_CONNECTIONS : Nat := 1000

/-- Bound `MISSED_DATA_LIMIT` on the missed-data fetch. -/
def MISSED_DATA_LIMIT : Nat := 100

/-- Hours parameter of the recent fetch in `sendMissedLiquidations`. -/
def MISSED_FETCH_HOURS : Nat := 1

/-- Lookup in the association-list model of a JavaScript Map. -/
def getAssoc {α : Type} (m : List (String × α)) (k : String) : Option α :=
  match m with
  | [] => none
  | (k0, v) :: rest => if k0 = k then some v else getAssoc rest k

/-- JavaScript Map.set: overwrite in place when the key exists, append a new
entry otherwise. -/
def setAssoc {α : Type} (m : List (String × α)) (k : String) (v : α) :
    List (String × α) :=
  match m with
  | [] => [(k, v)]
  | (k0, v0) :: rest => if k0 = k then (k, v) :: rest else (k0, v0) :: setAssoc rest k v

/-- Registry state of `SSEManagerService`: the client map keyed by client id
and the per-IP connection counters. -/
structure SSEManagerState where
  clients : List (String × SSEClientSt)
  ipConnectionCount : List (String × Nat)
deriving DecidableEq, Repr

def emptyManager : SSEManagerState := { clients := [], ipConnectionCount := [] }

/-- Successful result of `addClient`: the updated registry, the returned
client id, and the argument of the `sendMissedLiquidations` call the method
makes when the supplied resume id is truthy (`none` when no replay runs). -/
structure AddClientOk where
  state : SSEManagerState
  clientId : String
  replayFrom : Option Int
deriving DecidableEq, Repr

/-- `SSEManagerService.addClient` with the fresh `randomUUID` passed in as
`clientId`: deny (return null) when the total client count has reached
`MAX_TOTAL_CONNECTIONS` or the caller IP's counter has reached
`MAX_CONNECTIONS_PER_IP`; otherwise register the session — storing
`lastEventId || null`, so a supplied 0 is stored as null — bump the per-IP
counter, and invoke the resume replay only for a truthy `lastEventId`. -/
def addClient (st : SSEManagerState) (clientId ip : String)
    (filters : SSEClientFilters) (lastEventId : Option Int) : Option AddClientOk :=
  if st.clients.length ≥ MAX_TOTAL_CONNECTIONS then
    none
  else
    let currentIpCount := (getAssoc st.ipConnectionCount ip).getD 0
    if currentIpCount ≥ MAX_CONNECTIONS_PER_IP then
      none
    else
      let storedLast : Option Int :=
        match lastEventId with
        | some v => if v = 0 then none else some v
        | none => none
      let client : SSEClientSt :=
        { filters := filters, lastEventId := storedLast, ip := ip }
      some
        { state :=
            { clients := setAssoc st.clients clientId client,
              ipConnectionCount := setAssoc st.ipConnectionCount ip (currentIpCount + 1) },
          clientId := clientId,
          replayFrom := storedLast }

/-- Outcome the `/liquidations/stream` route handler produces from the
`addClient` result. -/
inductive StreamOutcome where
  | accepted (clientId : String)
  | rejected (status : Nat) (code : String)
deriving DecidableEq, Repr

/-- Admission part of the `GET /liquidations/stream` handler: a null client
id becomes HTTP 429 with code SSE_CONNECTION_LIMIT. -/
def streamAdmission (st : SSEManagerState) (clientId ip : String)
    (filters : SSEClientFilters) (lastEventId : Option Int) : StreamOutcome :=
  match addClient st clientId ip filters lastEventId with
  | none => .rejected 429 "SSE_CONNECTION_LIMIT"
  | some ok => .accepted ok.clientId

theorem length_setAssoc_of_fresh {α : Type} (m : List (String × α)) (k : String)
    (v : α) (h : getAssoc m k = none) : (setAssoc m k v).length = m.length + 1 := by
  induction m with
  | nil => rfl
  | cons p rest ih =>
    obtain ⟨k0, v0⟩ := p
    by_cases hk : k0 = k
    · simp [getAssoc, hk] at h
    · simp only [getAssoc, hk, if_false] at h
      simp [setAssoc, hk, ih h]

theorem getAssoc_setAssoc_self {α : Type} (m : List (String × α)) (k : String)
    (v : α) : getAssoc (setAssoc m k v) k = some v := by
  induction m with
  | nil => simp [setAssoc, getAssoc]
  | cons p rest ih =>
    obtain ⟨k0, v0⟩ := p
    by_cases hk : k0 = k
    · simp [setAssoc, getAssoc, hk]
    · simp [setAssoc, getAssoc, hk, ih]

/-- Claim C8: with a fresh client id, an attach is denied (null, surfaced by
the stream route as HTTP 429 with code SSE_CONNECTION_LIMIT) iff, at call
time, the total session count is at least MAX_TOTAL_CONNECTIONS (1000) or
the caller IP's counter is at least MAX_CONNECTIONS_PER_IP (3); otherwise
the session is registered and both the total count and the per-IP counter
grow by one. -/
theorem claim_C8_admission (st : SSEManagerState) (clientId ip : String)
    (filters : SSEClientFilters) (lastEventId : Option Int)
    (hfresh : getAssoc st.clients clientId = none) :
    (addClient st clientId ip filters lastEventId = none
      ↔ st.clients.length ≥ MAX_TOTAL_CONNECTIONS
        ∨ (getAssoc st.ipConnectionCount ip).getD 0 ≥ MAX_CONNECTIONS_PER_IP)
    ∧ (streamAdmission st clientId ip filters lastEventId
          = .rejected 429 "SSE_CONNECTION_LIMIT"
        ↔ addClient st clientId ip filters lastEventId = none)
    ∧ ∀ ok, addClient st clientId ip filters lastEventId = some ok →
        ok.state.clients.length = st.clients.length + 1
        ∧ getAssoc ok.state.ipConnectionCount ip
            = some ((getAssoc st.ipConnectionCount ip).getD 0 + 1) := by
  by_cases h1 : st.clients.length ≥ MAX_TOTAL_CONNECTIONS
  · refine ⟨by simp [addClient, h1], ?_, ?_⟩
    · simp [streamAdmission, addClient, h1]
    · intro ok hok
      simp [addClient, h1] at hok
  · by_cases h2 : (getAssoc st.ipConnectionCount ip).getD 0 ≥ MAX_CONNECTIONS_PER_IP
    · refine ⟨by simp [addClient, h1, h2], ?_, ?_⟩
      · simp [streamAdmission, addClient, h1, h2]
      · intro ok hok
        simp [addClient, h1, h2] at hok
    · refine ⟨by simp [addClient, h1, h2], ?_, ?_⟩
      · simp [streamAdmission, addClient, h1, h2]
      · intro ok hok
        simp only [addClient, h1, h2, if_false, Option.some.injEq] at hok
        subst hok
        exact ⟨length_setAssoc_of_fresh st.clients clientId _ hfresh,
          getAssoc_setAssoc_self st.ipConnectionCount ip _⟩

theorem claim_C8_admission_witness :
    streamAdmission emptyManager "c1" "203.0.113.7"
        { coin := none, minAmountDollars := none, user := none } none
      = .rejected 429 "SSE_CONNECTION_LIMIT"
    ↔ addClient emptyManager "c1" "203.0.113.7"
        { coin := none, minAmountDollars := none, user := none } none = none :=
  (claim_C8_admission emptyManager "c1" "203.0.113.7"
    { coin := none, minAmountDollars := none, user := none } none (by decide)).2.1

/-- Claim C10: an attach that passes admission with resume id 0 stores the
session's lastEventId as null and invokes no resume replay; more generally
the replay procedure runs exactly when the supplied resume id is present and
nonzero. -/
theorem claim_C10_resume_zero (st : SSEManagerState) (clientId ip : String)
    (filters : SSEClientFilters) :
    (∀ ok, addClient st clientId ip filters (some 0) = some ok →
        ok.replayFrom = none
        ∧ getAssoc ok.state.clients clientId
            = some { filters := filters, lastEventId := none, ip := ip })
    ∧ ∀ (lastEventId : Option Int) ok,
        addClient st clientId ip filters lastEventId = some ok →
        (ok.replayFrom ≠ none ↔ ∃ v, lastEventId = some v ∧ v ≠ 0) := by
  constructor
  · intro ok hok
    by_cases h1 : st.clients.length ≥ MAX_TOTAL_CONNECTIONS
    · simp [addClient, h1] at hok
    · by_cases h2 : (getAssoc st.ipConnectionCount ip).getD 0 ≥ MAX_CONNECTIONS_PER_IP
      · simp [addClient, h1, h2] at hok
      · simp only [addClient, h1, h2, if_false, Option.some.injEq] at hok
        subst hok
        exact ⟨rfl, getAssoc_setAssoc_self st.clients clientId _⟩
  · intro lastEventId ok hok
    by_cases h1 : st.clients.length ≥ MAX_TOTAL_CONNECTIONS
    · simp [addClient, h1] at hok
    · by_cases h2 : (getAssoc st.ipConnectionCount ip).getD 0 ≥ MAX_CONNECTIONS_PER_IP
      · simp [addClient, h1, h2] at hok
      · simp only [addClient, h1, h2, if_false, Option.some.injEq] at hok
        subst hok
        rcases lastEventId with _ | v
        · simp
        · by_cases hv : v = 0 <;> simp [hv]

/-- Filter set with no criteria provided. -/
def filtersNone : SSEClientFilters :=
  { coin := none, minAmountDollars := none, user := none }

/-- Registry value produced by attaching to the empty registry with resume
id 0 from IP 198.51.100.1. -/
def addClientZeroResult : AddClientOk :=
  { state :=
      { clients := [("c1", { filters := filtersNone, lastEventId := none,
                             ip := "198.51.100.1" })],
        ipConnectionCount := [("198.51.100.1", 1)] },
    clientId := "c1",
    replayFrom := none }

theorem claim_C10_resume_zero_witness :
    addClientZeroResult.replayFrom = none
    ∧ getAssoc addClientZeroResult.state.clients "c1"
        = some { filters := filtersNone, lastEventId := none, ip := "198.51.100.1" } :=
  (claim_C10_resume_zero emptyManager "c1" "198.51.100.1" filtersNone).1
    addClientZeroResult (by decide)

/-- Ascending tid ordering used by the resume replay sort
(`.sort((a, b) => a.tid - b.tid)`). -/
def tidLe (a b : Liquidation) : Prop := a.tid ≤ b.tid

instance : DecidableRel tidLe := fun a b => Int.decLe a.tid b.tid

instance : IsTotal Liquidation tidLe := ⟨fun a b => Int.le_total a.tid b.tid⟩

instance : IsTrans Liquidation tidLe := ⟨fun _ _ _ h1 h2 => Int.le_trans h1 h2⟩

/-- `SSEManagerService.sendMissedLiquidations`, taking the event list of the
hours = MISSED_FETCH_HOURS, limit = MISSED_DATA_LIMIT recent fetch as an
explicit argument: keep the events with tid above the resume point, sort
them ascending by tid, apply the session filters, and emit each frame in
order while advancing the session's `lastEventId`. -/
def sendMissedLiquidations (client : SSEClientSt) (lastEventId : Int)
    (recentData : List Liquidation) : List Liquidation × SSEClientSt :=
  let missedLiquidations :=
    List.insertionSort tidLe
      (recentData.filter fun liq => decide (liq.tid > lastEventId))
  let filteredMissed := filterLiquidations missedLiquidations client.filters
  (filteredMissed,
    match filteredMissed.getLast? with
    | some lastLiq => { client with lastEventId := some lastLiq.tid }
    | none => client)

theorem sendMissed_fst (client : SSEClientSt) (lastEventId : Int)
    (recentData : List Liquidation) :
    (sendMissedLiquidations client lastEventId recentData).1
      = (List.insertionSort tidLe
          (recentData.filter fun liq => decide (liq.tid > lastEventId))).filter
            (liqPasses client.filters) := rfl

/-- Claim C9: the liquidation frames the resume replay emits are exactly the
events of the fetched recent window whose tid exceeds the resume point and
which the session filter accepts, in ascending tid order; the fetch is the
one-hour recent page bounded by MISSED_DATA_LIMIT = 100 events. -/
theorem claim_C9_resume_replay (client : SSEClientSt) (lastEventId : Int)
    (recentData : List Liquidation) :
    ((sendMissedLiquidations client lastEventId recentData).1).Perm
        (recentData.filter fun e =>
          decide (e.tid > lastEventId) && liqPasses client.filters e)
    ∧ List.Sorted tidLe (sendMissedLiquidations client lastEventId recentData).1
    ∧ MISSED_FETCH_HOURS = 1 ∧ MISSED_DATA_LIMIT = 100 := by
  refine ⟨?_, ?_, rfl, rfl⟩
  · rw [sendMissed_fst]
    have h1 := (List.perm_insertionSort tidLe
        (recentData.filter fun liq => decide (liq.tid > lastEventId))).filter
        (liqPasses client.filters)
    have h2 : (recentData.filter fun liq =>
          decide (liq.tid > lastEventId)).filter (liqPasses client.filters)
        = recentData.filter fun e =>
            decide (e.tid > lastEventId) && liqPasses client.filters e := by
      rw [List.filter_filter]
      exact List.filter_congr fun a _ => Bool.and_comm _ _
    exact h2 ▸ h1
  · rw [sendMissed_fst]
    exact (List.sorted_insertionSort tidLe _).filter _

/-- Payload of the Redis broadcast channel (`SSEBroadcastMessage`), minus the
timestamp string no verified property reads. -/
structure SSEBroadcastMessage where
  newLiquidations : List Liquidation
deriving DecidableEq, Repr

/-- Maximum tid of a list, `Math.max(...liquidations.map(l => l.tid))`;
meaningful on the nonempty lists it is guarded by. -/
def maxTidOf : List Liquidation → Int
  | [] => 0
  | l :: rest => rest.foldl (fun m liq => max m liq.tid) l.tid

/-- Side effects of `SSEManagerService.broadcastNewLiquidations`: the value
written to the last-tid key, if any, and the messages published on the
broadcast channel. -/
structure BroadcastEffects where
  lastTidWrite : Option Int
  published : List SSEBroadcastMessage
deriving DecidableEq, Repr

/-- `SSEManagerService.broadcastNewLiquidations`: on a nonempty list, write
its maximum tid to the last-tid key and publish a single message carrying
the list unchanged; on an empty list do nothing. -/
def broadcastNewLiquidations (liquidations : List Liquidation) : BroadcastEffects :=
  if liquidations.length = 0 then
    { lastTidWrite := none, published := [] }
  else
    { lastTidWrite := some (maxTidOf liquidations),
      published := [{ newLiquidations := liquidations }] }

/-- Cache and broadcast effects of one successful `refreshAllData` pass over
the assembled window `W`: the pass builds and caches the unified per-period
blob and the stats blob, and performs no broadcast-channel publish and no
last-tid write — `refreshAllData` calls neither `broadcastNewLiquidations`
nor any other publish. -/
structure RefreshEffects where
  unified : List PeriodData
  statsAll : List (Nat × LiquidationStats)
  published : List SSEBroadcastMessage
  lastTidWrite : Option Int

/-- Per-period stats blob of `buildAndCacheStatsAll`. -/
def buildStatsAll (W : List Liquidation) (now : Int) : List (Nat × LiquidationStats) :=
  ([2, 4, 8, 12, 24] : List Nat).map fun hours =>
    (hours, calculateStats (periodFilter W now hours))

def refreshAllDataEffects (W : List Liquidation) (now : Int) : RefreshEffects :=
  { unified := buildUnifiedPeriods W now,
    statsAll := buildStatsAll W now,
    published := [],
    lastTidWrite := none }

/-- Modelled from the spec: the new-events delta of a refresh pass over
window `W` with prior marker `L`, the events with tid above `L` sorted
ascending by tid.  No code of the repository computes this delta or passes
it to the broadcast bus. -/
def specDelta (W : List Liquidation) (lastObservedId : Int) : List Liquidation :=
  List.insertionSort tidLe (W.filter fun e => decide (e.tid > lastObservedId))

/-- Claim C2, code evaluation at the failing input: every refresh pass
publishes nothing and never writes the last-observed marker, even though the
new-events delta of the single-event window (tid 10, marker 0) is nonempty
and the broadcast helper — documented as called by the refresh service —
would have published it. -/
theorem claim_C2_refresh_never_publishes :
    (∀ (W : List Liquidation) (now : Int),
        (refreshAllDataEffects W now).published = []
        ∧ (refreshAllDataEffects W now).lastTidWrite = none)
    ∧ specDelta [evS2] 0 = [evS2]
    ∧ (broadcastNewLiquidations (specDelta [evS2] 0)).published
        = [{ newLiquidations := [evS2] }] :=
  ⟨fun _ _ => ⟨rfl, rfl⟩, rfl, rfl⟩

end LiquidTerminal
